import Mathlib

/-!
Verification of the job-dispatch and progress-tracking behaviour of
`apps/dmrecon/dmrecon.cc` (the `dmrecon` command-line batch driver).

The embedding follows the source line by line.  External collaborators
(`mvs::DMRecon`, `mve::View::save_mve_file`) are represented by outcome
oracles `Nat → Except String Unit`, where `Except.error e` models a thrown
C++ exception with message `e`.  The OpenMP `parallel for` at dmrecon.cc:214
is modelled as a left fold over the listed ids: each iteration touches only
its own view id in the registry, so every interleaving yields the same
per-id registry outcome.
-/

namespace Dmrecon

/-- Per-view progress status.  Modelled from the spec: the progress printer
lives in `fancy_progress_printer.h`, which is not among the given sources;
the spec describes a per-job machine Pending → Running → {Done, Failed}
(`queued` is Pending, `inProgress` is Running), with unregistered views
shown as `ignored`. -/
inductive ViewStatus
  | ignored
  | queued
  | inProgress
  | done
  | failed
deriving DecidableEq, Repr

/-- The progress registry: latest-write-wins association list from view id
to status.  An id never written reads as `ignored`. -/
abbrev Printer := List (Nat × ViewStatus)

def setStatus (p : Printer) (id : Nat) (s : ViewStatus) : Printer :=
  (id, s) :: p

def getStatus : Printer → Nat → ViewStatus
  | [], _ => ViewStatus.ignored
  | e :: p, id => if e.1 = id then e.2 else getStatus p id

/-- Modelled from the spec: `FancyProgressPrinter::addRefView` registers a
ProgressState in Pending (`queued`) for the given view id. -/
def addRefView (p : Printer) (id : Nat) : Printer :=
  setStatus p id ViewStatus.queued

/-- `FancyProgressPrinter::addRefViews`: registers every id of the list. -/
def addRefViews : Printer → List Nat → Printer
  | p, [] => p
  | p, a :: as => addRefViews (addRefView p a) as

/-- Outcome of a call into an external collaborator: `Except.error e`
models a thrown C++ exception carrying message `e`. -/
abbrev Outcome := Except String Unit

/-- A view as the scheduler observes it: camera validity
(`is_camera_valid`) and the names of the embeddings stored in the view
(`has_embedding`).  `mve::View` itself is an external collaborator; these
are the only observations `main` makes of it. -/
structure View where
  cameraValid : Bool
  embeddings : List String
deriving DecidableEq, Repr

/-- `scene->get_views()`: a view entry may be a null pointer. -/
abbrev Scene := List (Option View)

/-- dmrecon.cc:202-203: `"depth-L" + util::string::get(mySettings.scale)`. -/
def embeddingName (scale : Nat) : String :=
  "depth-L" ++ toString scale

/-- Status writes performed by `reconstruct` (dmrecon.cc:25-36) for one
job, in order.  Modelled from the spec's scoped-acquisition pattern and the
comment at dmrecon.cc:28-30: constructing the `ProgressHandle` marks the
view `inProgress`; `setDone` marks `done` on normal return of
`recon.start()`; the handle's destructor marks `failed` when `setDone` was
never called (an exception was thrown inside `mvs::DMRecon`). -/
def reconstructTrace (outcome : Outcome) : List ViewStatus :=
  ViewStatus.inProgress ::
    (match outcome with
     | Except.ok _ => [ViewStatus.done]
     | Except.error _ => [ViewStatus.failed])

def applyTrace (p : Printer) (id : Nat) : List ViewStatus → Printer
  | [] => p
  | s :: rest => applyTrace (setStatus p id s) id rest

/-- `reconstruct(scene, settings)` (dmrecon.cc:25-36): performs the status
writes of the scoped handle and re-raises the exception of `recon.start()`
if there was one. -/
def reconstruct (p : Printer) (id : Nat) (outcome : Outcome) :
    Printer × Outcome :=
  (applyTrace p id (reconstructTrace outcome), outcome)

/-- Decision of the pre-dispatch checks at dmrecon.cc:217-226 for one
listed id. -/
inductive Admission
  | tooLarge
  | invalidView
  | hasResult
  | accepted
deriving DecidableEq, Repr

/-- dmrecon.cc:217-226: `tooLarge` when `id >= views.size()` (printed
skip); `invalidView` when `views[id] == NULL || !views[id]->is_camera_valid()`
(silent skip; the null test short-circuits the camera call); `hasResult`
when `!force_recon && views[id]->has_embedding(embedding_name)` (silent
skip); otherwise the job is dispatched. -/
def admission (views : Scene) (force : Bool) (emb : String) (id : Nat) :
    Admission :=
  if views.length ≤ id then Admission.tooLarge
  else
    match views.getD id none with
    | none => Admission.invalidView
    | some v =>
      if !v.cameraValid then Admission.invalidView
      else if !force && v.embeddings.contains emb then Admission.hasResult
      else Admission.accepted

/-- Observable state threaded through `main`: the progress registry plus
the stdout lines, stderr lines, and the views for which the reconstruction
call and the per-view save were invoked, in order. -/
structure BatchState where
  printer : Printer
  cout : List String
  cerr : List String
  reconCalls : List Nat
  saveCalls : List Nat
deriving DecidableEq, Repr

def initialState : BatchState :=
  { printer := [], cout := [], cerr := [], reconCalls := [], saveCalls := [] }

/-- dmrecon.cc:219-220. -/
def skipMessage (id : Nat) : String :=
  "ID: " ++ toString id ++ " is too large! Skipping..."

/-- Body of the loop at dmrecon.cc:215-239 for one listed id.  `recon id`
is the outcome of constructing and starting `mvs::DMRecon` for view `id`;
`save id` is the outcome of `views[id]->save_mve_file()`.  The `try` block
runs `reconstruct` then the save; any exception is caught and its message
printed to stderr (dmrecon.cc:230-238). -/
def jobStep (views : Scene) (force : Bool) (emb : String)
    (recon save : Nat → Outcome) (st : BatchState) (id : Nat) : BatchState :=
  match admission views force emb id with
  | Admission.tooLarge => { st with cout := st.cout ++ [skipMessage id] }
  | Admission.invalidView => st
  | Admission.hasResult => st
  | Admission.accepted =>
    let st1 := { st with reconCalls := st.reconCalls ++ [id] }
    match reconstruct st1.printer id (recon id) with
    | (p, Except.ok _) =>
      let st2 := { st1 with printer := p, saveCalls := st1.saveCalls ++ [id] }
      match save id with
      | Except.ok _ => st2
      | Except.error e => { st2 with cerr := st2.cerr ++ [e] }
    | (p, Except.error e) => { st1 with printer := p, cerr := st1.cerr ++ [e] }

/-- The loop at dmrecon.cc:214-239 over all listed ids. -/
def runJobs (views : Scene) (force : Bool) (emb : String)
    (recon save : Nat → Outcome) : BatchState → List Nat → BatchState
  | st, [] => st
  | st, a :: as =>
      runJobs views force emb recon save
        (jobStep views force emb recon save st a) as

/-- dmrecon.cc:204-208: an empty `--list-view` means every view id of the
scene, in order. -/
def effectiveIDs (listIDs : List Nat) (numViews : Nat) : List Nat :=
  if listIDs.isEmpty then List.range numViews else listIDs

/-- Batch branch of `main` (dmrecon.cc:199-240): print the banner, register
every listed id with the printer (dmrecon.cc:212), then run the loop. -/
def runBatch (views : Scene) (force : Bool) (scale : Nat)
    (recon save : Nat → Outcome) (listIDs : List Nat) (st : BatchState) :
    BatchState :=
  let emb := embeddingName scale
  let ids := effectiveIDs listIDs views.length
  let st1 := { st with cout := st.cout ++
    [if listIDs.isEmpty then "Reconstructing all views..."
     else "Reconstructing views from list..."] }
  let st2 := { st1 with printer := addRefViews st1.printer ids }
  runJobs views force emb recon save st2 ids

/-- Master branch of `main` (dmrecon.cc:186-198): print the banner,
register the master id, and call `reconstruct` inside `try/catch` — no
pre-dispatch checks of any kind, and no per-view save in the `try` block. -/
def runMaster (masterId : Nat) (recon : Nat → Outcome) (st : BatchState) :
    BatchState :=
  let st1 := { st with cout := st.cout ++
    ["Reconstructing view with ID " ++ toString masterId] }
  let st2 := { st1 with printer := addRefView st1.printer masterId,
                        reconCalls := st1.reconCalls ++ [masterId] }
  match reconstruct st2.printer masterId (recon masterId) with
  | (p, Except.ok _) => { st2 with printer := p }
  | (p, Except.error e) => { st2 with printer := p, cerr := st2.cerr ++ [e] }

/-- dmrecon.cc:16-21. -/
inductive ProgressStyle
  | silent
  | simple
  | fancy
deriving DecidableEq, Repr

/-- Result of one whole run of `main` after the scene was loaded. -/
structure RunResult where
  state : BatchState
  quiet : Bool
  dashboardStarted : Bool
  dashboardJoined : Bool
  savedViews : Bool
  exitCode : Nat
deriving DecidableEq, Repr

/-- `main` from dmrecon.cc:154 on: `quiet` is set unless the style is
`simple` (dmrecon.cc:154-156); the printer thread is created only for the
`fancy` style (dmrecon.cc:183-184) and stopped and joined only for it
(dmrecon.cc:242-246); then the master or batch branch runs, the views are
saved back (dmrecon.cc:250), and `main` returns 0 (dmrecon.cc:252). -/
def fullRun (style : ProgressStyle) (views : Scene) (force : Bool)
    (scale : Nat) (recon save : Nat → Outcome) (masterId : Option Nat)
    (listIDs : List Nat) : RunResult :=
  let quiet := decide (style ≠ ProgressStyle.simple)
  let started := decide (style = ProgressStyle.fancy)
  let st :=
    match masterId with
    | some m => runMaster m recon initialState
    | none => runBatch views force scale recon save listIDs initialState
  { state := st
    quiet := quiet
    dashboardStarted := started
    dashboardJoined := started
    savedViews := true
    exitCode := 0 }

/-- dmrecon.cc:171-178, one `let` per statement: the append at line 176
targets `plyPath` although it sits between the `logPath` statements. -/
structure PathSettings where
  plyPath : String
  logPath : String
deriving DecidableEq, Repr

def buildPaths (basePath plyDest logDest : String) : PathSettings :=
  let ply0 := basePath
  let ply1 := ply0 ++ "/"
  let ply2 := ply1 ++ plyDest
  let ply3 := ply2 ++ "/"
  let log0 := basePath
  let ply4 := ply3 ++ "/"
  let log1 := log0 ++ logDest
  let log2 := log1 ++ "/"
  { plyPath := ply4, logPath := log2 }

/-- The terminal status a dispatched job ends with, as a function of the
reconstruction outcome for its view. -/
def jobFinal (recon : Nat → Outcome) (id : Nat) : ViewStatus :=
  match recon id with
  | Except.ok _ => ViewStatus.done
  | Except.error _ => ViewStatus.failed

def isTerminal : ViewStatus → Bool
  | ViewStatus.done => true
  | ViewStatus.failed => true
  | _ => false

/-! ### Registry lemmas -/

theorem getStatus_setStatus (p : Printer) (a id : Nat) (s : ViewStatus) :
    getStatus (setStatus p a s) id = if a = id then s else getStatus p id :=
  rfl

theorem getStatus_addRefViews (ids : List Nat) (p : Printer) (id : Nat) :
    getStatus (addRefViews p ids) id =
      if id ∈ ids then ViewStatus.queued else getStatus p id := by
  induction ids generalizing p with
  | nil => simp [addRefViews]
  | cons a as ih =>
    show getStatus (addRefViews (addRefView p a) as) id = _
    rw [ih]
    by_cases h1 : id ∈ as
    · simp [h1]
    · by_cases h2 : a = id
      · simp [h1, h2, addRefView, getStatus_setStatus]
      · simp [h1, h2, Ne.symm h2, addRefView, getStatus_setStatus]

theorem getStatus_jobStep (views : Scene) (force : Bool) (emb : String)
    (recon save : Nat → Outcome) (st : BatchState) (a id : Nat) :
    getStatus (jobStep views force emb recon save st a).printer id =
      if a = id ∧ admission views force emb a = Admission.accepted
      then jobFinal recon a else getStatus st.printer id := by
  unfold jobStep
  cases hadm : admission views force emb a with
  | tooLarge => simp [hadm]
  | invalidView => simp [hadm]
  | hasResult => simp [hadm]
  | accepted =>
    by_cases h : a = id
    · subst h
      cases hr : recon a with
      | ok u =>
        cases hs : save a with
        | ok v =>
          simp [hr, hs, reconstruct, reconstructTrace, applyTrace,
            getStatus_setStatus, jobFinal]
        | error e =>
          simp [hr, hs, reconstruct, reconstructTrace, applyTrace,
            getStatus_setStatus, jobFinal]
      | error e =>
        simp [hr, reconstruct, reconstructTrace, applyTrace,
          getStatus_setStatus, jobFinal]
    · cases hr : recon a with
      | ok u =>
        cases hs : save a with
        | ok v =>
          simp [hr, hs, reconstruct, reconstructTrace, applyTrace,
            getStatus_setStatus, h]
        | error e =>
          simp [hr, hs, reconstruct, reconstructTrace, applyTrace,
            getStatus_setStatus, h]
      | error e =>
        simp [hr, reconstruct, reconstructTrace, applyTrace,
          getStatus_setStatus, h]

theorem getStatus_runJobs (views : Scene) (force : Bool) (emb : String)
    (recon save : Nat → Outcome) (ids : List Nat) (st : BatchState)
    (id : Nat) :
    getStatus (runJobs views force emb recon save st ids).printer id =
      if id ∈ ids ∧ admission views force emb id = Admission.accepted
      then jobFinal recon id else getStatus st.printer id := by
  induction ids generalizing st with
  | nil => simp [runJobs]
  | cons a as ih =>
    show getStatus (runJobs views force emb recon save
      (jobStep views force emb recon save st a) as).printer id = _
    rw [ih, getStatus_jobStep]
    by_cases h1 : id ∈ as ∧ admission views force emb id = Admission.accepted
    · simp [h1, h1.1, h1.2]
    · by_cases h2 : a = id
      · subst h2
        by_cases h3 : admission views force emb a = Admission.accepted
        · simp [h1, h3]
        · simp [h1, h3]
      · by_cases h3 : admission views force emb id = Admission.accepted
        · have : ¬ id ∈ as := fun hm => h1 ⟨hm, h3⟩
          simp [h1, h2, h3, this, List.mem_cons, Ne.symm h2]
        · simp [h1, h2, h3]

theorem jobStep_reconCalls (views : Scene) (force : Bool) (emb : String)
    (recon save : Nat → Outcome) (st : BatchState) (a : Nat) :
    (jobStep views force emb recon save st a).reconCalls =
      st.reconCalls ++
        (if admission views force emb a = Admission.accepted then [a]
         else []) := by
  unfold jobStep
  cases hadm : admission views force emb a with
  | tooLarge => simp [hadm]
  | invalidView => simp [hadm]
  | hasResult => simp [hadm]
  | accepted =>
    cases hr : recon a with
    | ok u =>
      cases hs : save a with
      | ok v => simp [hr, hs, reconstruct, hadm]
      | error e => simp [hr, hs, reconstruct, hadm]
    | error e => simp [hr, reconstruct, hadm]

theorem runJobs_reconCalls (views : Scene) (force : Bool) (emb : String)
    (recon save : Nat → Outcome) (ids : List Nat) (st : BatchState) :
    (runJobs views force emb recon save st ids).reconCalls =
      st.reconCalls ++
        ids.filter
          (fun id => decide (admission views force emb id = Admission.accepted)) := by
  induction ids generalizing st with
  | nil => simp [runJobs]
  | cons a as ih =>
    show (runJobs views force emb recon save
      (jobStep views force emb recon save st a) as).reconCalls = _
    rw [ih, jobStep_reconCalls]
    by_cases h : admission views force emb a = Admission.accepted
    · simp [h, List.filter_cons]
    · simp [h, List.filter_cons]

/-- Inversion of a positive dispatch decision: an accepted id is in range
and names a non-null view with a valid camera. -/
theorem admission_accepted_inv (views : Scene) (force : Bool) (emb : String)
    (j : Nat) (h : admission views force emb j = Admission.accepted) :
    j < views.length
    ∧ ∃ w, views.getD j none = some w ∧ w.cameraValid = true := by
  unfold admission at h
  by_cases hlt : views.length ≤ j
  · rw [if_pos hlt] at h
    exact absurd h (by simp)
  · rw [if_neg hlt] at h
    cases hv : views.getD j none with
    | none =>
      rw [hv] at h
      exact absurd h (by simp)
    | some v =>
      rw [hv] at h
      cases hcv : v.cameraValid with
      | false => simp [hcv] at h
      | true => exact ⟨Nat.lt_of_not_le hlt, v, rfl, hcv⟩

/-! ### Concrete fixtures used by counterexamples and witnesses -/

def validView : View := { cameraValid := true, embeddings := [] }

def invalidCamView : View := { cameraValid := false, embeddings := [] }

def sceneInvalidCam : Scene := [some invalidCamView]

def sceneOK : Scene := [some validView]

def sceneTwo : Scene := [some validView, some validView]

/-- Eight views whose view 7 has an invalid camera. -/
def sceneC5 : Scene := List.replicate 7 (some validView) ++ [some invalidCamView]

def reconOk : Nat → Outcome := fun _ => Except.ok ()

def saveOk : Nat → Outcome := fun _ => Except.ok ()

/-- `mvs::DMRecon` refusing to run on a view without a valid camera. -/
def reconInvalidCamera : Nat → Outcome := fun _ => Except.error "invalid camera"

def saveDiskFull : Nat → Outcome := fun _ => Except.error "could not save view"

def reconBoom : Nat → Outcome := fun id =>
  if id = 1 then Except.error "boom" else Except.ok ()

/-- The camera test the loop condition at dmrecon.cc:223 computes:
true when `views[id]` is null or its camera is invalid. -/
def camInvalidAt (views : Scene) (id : Nat) : Bool :=
  match views.getD id none with
  | none => true
  | some v => !v.cameraValid

/-- `views[id]->has_embedding(emb)` as observed by the loop condition at
dmrecon.cc:225, false for a null entry. -/
def hasEmbAt (views : Scene) (emb : String) (id : Nat) : Bool :=
  match views.getD id none with
  | none => false
  | some v => v.embeddings.contains emb

theorem camInvalidAt_of_none (views : Scene) (id : Nat)
    (hv : views.getD id none = none) : camInvalidAt views id = true := by
  unfold camInvalidAt
  rw [hv]

theorem camInvalidAt_of_some (views : Scene) (id : Nat) (v : View)
    (hv : views.getD id none = some v) :
    camInvalidAt views id = !v.cameraValid := by
  unfold camInvalidAt
  rw [hv]

theorem hasEmbAt_of_some (views : Scene) (emb : String) (id : Nat) (v : View)
    (hv : views.getD id none = some v) :
    hasEmbAt views emb id = v.embeddings.contains emb := by
  unfold hasEmbAt
  rw [hv]

/-- Unfolding of `admission` on an in-range id with a non-null view. -/
theorem admission_some (views : Scene) (force : Bool) (emb : String)
    (id : Nat) (v : View) (hlt : ¬ views.length ≤ id)
    (hv : views.getD id none = some v) :
    admission views force emb id =
      (if !v.cameraValid then Admission.invalidView
       else if !force && v.embeddings.contains emb then Admission.hasResult
       else Admission.accepted) := by
  unfold admission
  rw [if_neg hlt, hv]

/-! ### Claim theorems -/

/-- C1: a job whose execution exits abnormally after reaching Running
without `setDone` ends `failed`: the scoped handle writes `inProgress` on
acquisition (the trace starts with it), writes exactly one terminal status
per job whatever the exit path, and on an abnormal exit (exception from
`recon.start()`) that terminal status is `failed` while the exception is
re-raised to the job boundary. -/
theorem C1_abnormal_exit_ends_failed (p : Printer) (id : Nat) (e : String)
    (o : Outcome) :
    getStatus (reconstruct p id (Except.error e)).1 id = ViewStatus.failed
    ∧ (reconstruct p id (Except.error e)).2 = Except.error e
    ∧ reconstructTrace (Except.error e)
        = [ViewStatus.inProgress, ViewStatus.failed]
    ∧ (reconstructTrace o).head? = some ViewStatus.inProgress
    ∧ ((reconstructTrace o).filter isTerminal).length = 1
    ∧ getStatus (reconstruct p id o).1 id
        = (match o with
           | Except.ok _ => ViewStatus.done
           | Except.error _ => ViewStatus.failed) := by
  refine ⟨?_, rfl, rfl, ?_, ?_, ?_⟩ <;> cases o <;>
    simp [reconstruct, reconstructTrace, applyTrace, getStatus_setStatus,
      isTerminal]

/-- C7: when the explicit id list is empty (and no master view is forced),
the batch iterates every view of the dataset: the effective id list is
`0, 1, …, ViewCount - 1` in order. -/
theorem C7_empty_list_means_all_views (n : Nat) :
    effectiveIDs [] n = List.range n
    ∧ (effectiveIDs [] n).length = n
    ∧ ∀ i, i < n → (effectiveIDs [] n).getD i 0 = i := by
  refine ⟨rfl, by simp [effectiveIDs], ?_⟩
  intro i hi
  simp [effectiveIDs, List.getD, List.getElem?_range hi]

theorem C7_empty_list_witness :
    1 < 3 ∧ (effectiveIDs [] 3).getD 1 0 = 1 :=
  ⟨by decide, (C7_empty_list_means_all_views 3).2.2 1 (by decide)⟩

/-- C8: with the dashboard disabled (style not `fancy`) the printer thread
is neither created nor joined, and everything else — admissions, recon
calls, saves, the final registry, the exit code, the final scene save — is
exactly what a `fancy`-style run produces. -/
theorem C8_dashboard_disabled_same_behavior (style : ProgressStyle)
    (views : Scene) (force : Bool) (scale : Nat)
    (recon save : Nat → Outcome) (masterId : Option Nat)
    (listIDs : List Nat) :
    ((fullRun style views force scale recon save masterId
        listIDs).dashboardStarted = true ↔ style = ProgressStyle.fancy)
    ∧ ((fullRun style views force scale recon save masterId
        listIDs).dashboardJoined = true ↔ style = ProgressStyle.fancy)
    ∧ (fullRun style views force scale recon save masterId listIDs).state
        = (fullRun ProgressStyle.fancy views force scale recon save masterId
            listIDs).state
    ∧ (fullRun style views force scale recon save masterId listIDs).exitCode
        = (fullRun ProgressStyle.fancy views force scale recon save masterId
            listIDs).exitCode
    ∧ (fullRun style views force scale recon save masterId listIDs).savedViews
        = (fullRun ProgressStyle.fancy views force scale recon save masterId
            listIDs).savedViews := by
  refine ⟨?_, ?_, rfl, rfl, rfl⟩ <;> simp [fullRun]

/-- C9: the path construction of `main` leaves `plyPath` with a doubled
trailing separator (the extra append at dmrecon.cc:176 targets `plyPath`)
and joins `logPath` without a separator between the base path and the log
destination. -/
theorem C9_ply_path_double_separator (b p l : String) :
    (buildPaths b p l).plyPath = b ++ "/" ++ p ++ "/" ++ "/"
    ∧ (buildPaths b p l).logPath = b ++ l ++ "/" :=
  ⟨rfl, rfl⟩

/-- C2: one job's reconstruction failure is contained at that job's
boundary: the run still exits with code 0, the reconstruction call is
invoked for every accepted listed id (in list order, regardless of any
failures among them), and a job whose reconstruction call signals an error
ends `failed` in the registry. -/
theorem C2_batch_never_aborts (style : ProgressStyle) (views : Scene)
    (force : Bool) (scale : Nat) (recon save : Nat → Outcome)
    (listIDs : List Nat) :
    (fullRun style views force scale recon save none listIDs).exitCode = 0
    ∧ (fullRun style views force scale recon save none
        listIDs).state.reconCalls
        = (effectiveIDs listIDs views.length).filter
            (fun id =>
              decide (admission views force (embeddingName scale) id
                = Admission.accepted))
    ∧ ∀ id e, id ∈ effectiveIDs listIDs views.length →
        admission views force (embeddingName scale) id = Admission.accepted →
        recon id = Except.error e →
        getStatus (fullRun style views force scale recon save none
          listIDs).state.printer id = ViewStatus.failed := by
  refine ⟨rfl, ?_, ?_⟩
  · simp [fullRun, runBatch, runJobs_reconCalls, initialState]
  · intro id e hmem hacc hrec
    simp only [fullRun, runBatch]
    rw [getStatus_runJobs]
    simp [hmem, hacc, jobFinal, hrec]

theorem C2_batch_never_aborts_witness :
    getStatus (fullRun ProgressStyle.fancy sceneTwo false 0 reconBoom saveOk
      none []).state.printer 1 = ViewStatus.failed :=
  (C2_batch_never_aborts ProgressStyle.fancy sceneTwo false 0 reconBoom
    saveOk []).2.2 1 "boom" (by decide) (by decide) rfl

/-- C3 counterexample: view 0 of `sceneInvalidCam` is in range but its
camera is invalid; the loop body skips it with the batch state completely
unchanged — no log message is printed for the skip, so admission rule (b)
is not accompanied by a log message as the claim states. -/
theorem C3_counterexample :
    admission sceneInvalidCam false (embeddingName 0) 0
      = Admission.invalidView
    ∧ jobStep sceneInvalidCam false (embeddingName 0) reconOk saveOk
        initialState 0 = initialState := by
  exact ⟨rfl, rfl⟩

/-- C3 (amended): the admission rules run in order before dispatch —
(a) out-of-range ids are skipped with a log message; (b) a null view or an
invalid camera is skipped silently; (c) an existing depth embedding without
`--force` is skipped silently; a job is dispatched (its reconstruction call
runs) exactly when it passes all three checks. -/
theorem C3_admission_order (views : Scene) (force : Bool) (emb : String)
    (recon save : Nat → Outcome) (st : BatchState) (id : Nat) :
    (views.length ≤ id →
      admission views force emb id = Admission.tooLarge
      ∧ jobStep views force emb recon save st id
          = { st with cout := st.cout ++ [skipMessage id] })
    ∧ (id < views.length → camInvalidAt views id = true →
      admission views force emb id = Admission.invalidView
      ∧ jobStep views force emb recon save st id = st)
    ∧ (id < views.length → camInvalidAt views id = false → force = false →
       hasEmbAt views emb id = true →
      admission views force emb id = Admission.hasResult
      ∧ jobStep views force emb recon save st id = st)
    ∧ (admission views force emb id = Admission.accepted ↔
        id < views.length ∧ camInvalidAt views id = false
        ∧ (force = true ∨ hasEmbAt views emb id = false))
    ∧ (admission views force emb id = Admission.accepted →
        (jobStep views force emb recon save st id).reconCalls
          = st.reconCalls ++ [id]) := by
  refine ⟨?_, ?_, ?_, ?_, ?_⟩
  · intro h
    have hadm : admission views force emb id = Admission.tooLarge := by
      unfold admission
      rw [if_pos h]
    exact ⟨hadm, by simp [jobStep, hadm]⟩
  · intro h hcam
    have hadm : admission views force emb id = Admission.invalidView := by
      cases hv : views.getD id none with
      | none =>
        unfold admission
        rw [if_neg (Nat.not_le.mpr h), hv]
      | some v =>
        have hcv : (!v.cameraValid) = true := by
          rw [camInvalidAt_of_some views id v hv] at hcam
          exact hcam
        rw [admission_some views force emb id v (Nat.not_le.mpr h) hv, hcv]
        simp
    exact ⟨hadm, by simp [jobStep, hadm]⟩
  · intro h hcam hforce hemb
    cases hv : views.getD id none with
    | none =>
      rw [camInvalidAt_of_none views id hv] at hcam
      exact absurd hcam (by decide)
    | some v =>
      have hcv : v.cameraValid = true := by
        rw [camInvalidAt_of_some views id v hv] at hcam
        simpa using hcam
      have hce : v.embeddings.contains emb = true := by
        rw [hasEmbAt_of_some views emb id v hv] at hemb
        exact hemb
      have hadm : admission views force emb id = Admission.hasResult := by
        rw [admission_some views force emb id v (Nat.not_le.mpr h) hv,
          hcv, hforce, hce]
        decide
      exact ⟨hadm, by simp [jobStep, hadm]⟩
  · constructor
    · intro hacc
      obtain ⟨hlt, w, hw, hcv⟩ :=
        admission_accepted_inv views force emb id hacc
      refine ⟨hlt, by rw [camInvalidAt_of_some views id w hw, hcv]; decide, ?_⟩
      cases hforce : force with
      | true => exact Or.inl rfl
      | false =>
        refine Or.inr ?_
        rw [hasEmbAt_of_some views emb id w hw]
        cases hcc : w.embeddings.contains emb with
        | false => rfl
        | true =>
          have : admission views force emb id = Admission.hasResult := by
            rw [admission_some views force emb id w (Nat.not_le.mpr hlt) hw,
              hcv, hforce, hcc]
            decide
          rw [this] at hacc
          exact absurd hacc (by decide)
    · rintro ⟨hlt, hcam, hrest⟩
      cases hv : views.getD id none with
      | none =>
        rw [camInvalidAt_of_none views id hv] at hcam
        exact absurd hcam (by decide)
      | some v =>
        have hcv : v.cameraValid = true := by
          rw [camInvalidAt_of_some views id v hv] at hcam
          simpa using hcam
        rw [admission_some views force emb id v (Nat.not_le.mpr hlt) hv, hcv]
        cases hrest with
        | inl hforce =>
          rw [hforce]
          simp
        | inr hemb =>
          have hce : v.embeddings.contains emb = false := by
            rw [hasEmbAt_of_some views emb id v hv] at hemb
            exact hemb
          rw [hce]
          cases force <;> decide
  · intro hacc
    rw [jobStep_reconCalls]
    simp [hacc]

theorem C3_admission_order_witness :
    (admission sceneInvalidCam false (embeddingName 0) 5 = Admission.tooLarge
      ∧ jobStep sceneInvalidCam false (embeddingName 0) reconOk saveOk
          initialState 5
        = { initialState with
            cout := initialState.cout ++ [skipMessage 5] })
    ∧ admission sceneOK false (embeddingName 0) 0 = Admission.accepted :=
  ⟨(C3_admission_order sceneInvalidCam false (embeddingName 0) reconOk saveOk
      initialState 5).1 (by decide),
   (C3_admission_order sceneOK false (embeddingName 0) reconOk saveOk
      initialState 0).2.2.2.1.mpr (by decide)⟩

/-- C4 counterexample: with an empty scene, listed id 5 is rejected by the
out-of-range admission rule, yet after the whole batch it sits in the
registry at `queued` (Pending) — a skipped job does appear in the progress
registry, because dmrecon.cc:212 registers every listed id before the
admission checks run. -/
theorem C4_counterexample :
    admission ([] : Scene) false (embeddingName 0) 5 = Admission.tooLarge
    ∧ getStatus (runBatch ([] : Scene) false 0 reconOk saveOk [5]
        initialState).printer 5 = ViewStatus.queued := by
  exact ⟨rfl, rfl⟩

/-- C4 (amended): every listed job — accepted or not — is registered in
Pending (`queued`) before the admission loop runs; a listed job rejected by
an admission rule stays at `queued` forever (it is in the registry but
never reaches Running), while an accepted job ends in the terminal status
determined by its reconstruction outcome. -/
theorem C4_all_listed_registered (views : Scene) (force : Bool)
    (scale : Nat) (recon save : Nat → Outcome) (listIDs : List Nat)
    (id : Nat) (hmem : id ∈ effectiveIDs listIDs views.length) :
    (admission views force (embeddingName scale) id ≠ Admission.accepted →
      getStatus (runBatch views force scale recon save listIDs
        initialState).printer id = ViewStatus.queued)
    ∧ (admission views force (embeddingName scale) id = Admission.accepted →
      getStatus (runBatch views force scale recon save listIDs
        initialState).printer id = jobFinal recon id
      ∧ isTerminal (getStatus (runBatch views force scale recon save listIDs
          initialState).printer id) = true) := by
  constructor
  · intro hna
    simp only [runBatch]
    rw [getStatus_runJobs]
    simp [hna, getStatus_addRefViews, hmem, initialState]
  · intro hacc
    have hst : getStatus (runBatch views force scale recon save listIDs
        initialState).printer id = jobFinal recon id := by
      simp only [runBatch]
      rw [getStatus_runJobs]
      simp [hmem, hacc]
    refine ⟨hst, ?_⟩
    rw [hst]
    unfold jobFinal
    cases recon id <;> simp [isTerminal]

theorem C4_all_listed_registered_witness :
    admission sceneInvalidCam false (embeddingName 0) 0
      ≠ Admission.accepted
    ∧ getStatus (runBatch sceneInvalidCam false 0 reconOk saveOk [0]
        initialState).printer 0 = ViewStatus.queued :=
  ⟨by decide,
   (C4_all_listed_registered sceneInvalidCam false 0 reconOk saveOk [0] 0
      (by decide)).1 (by decide)⟩

/-- C5 counterexample: a forced single master view 7 whose camera is
invalid (`sceneC5`).  The master branch performs no admission checks: the
reconstruction call is attempted for view 7 (`reconCalls = [7]`), and the
job is registered — it ends `failed` in the registry, not absent — so
neither "zero jobs registered" nor "no reconstruction is attempted" holds. -/
theorem C5_counterexample :
    sceneC5.getD 7 none = some invalidCamView
    ∧ (fullRun ProgressStyle.fancy sceneC5 false 0 reconInvalidCamera saveOk
        (some 7) []).state.reconCalls = [7]
    ∧ getStatus (fullRun ProgressStyle.fancy sceneC5 false 0
        reconInvalidCamera saveOk (some 7) []).state.printer 7
      = ViewStatus.failed := by
  exact ⟨rfl, rfl, rfl⟩

/-- C5 (amended): in single-job mode none of the admission rules is
applied: whatever the scene contents (out-of-range id, null view, invalid
camera, or existing result alike), the forced master view is registered
and its reconstruction call is invoked exactly once, a failure of that
call is caught at the job boundary leaving the job in the terminal status
determined by the outcome, and the run returns 0. -/
theorem C5_master_mode_no_checks (style : ProgressStyle) (views : Scene)
    (force : Bool) (scale : Nat) (recon save : Nat → Outcome) (m : Nat)
    (listIDs : List Nat) :
    (fullRun style views force scale recon save (some m)
        listIDs).state.reconCalls = [m]
    ∧ getStatus (fullRun style views force scale recon save (some m)
        listIDs).state.printer m = jobFinal recon m
    ∧ (fullRun style views force scale recon save (some m)
        listIDs).exitCode = 0 := by
  refine ⟨?_, ?_, rfl⟩ <;> cases hr : recon m <;>
    simp [fullRun, runMaster, reconstruct, reconstructTrace, applyTrace,
      getStatus_setStatus, initialState, jobFinal, hr]

/-- C6: for an accepted job, the per-view save is invoked exactly when the
reconstruction call returned normally (the job reached Done), within that
job's own loop iteration; a failing save is caught and its message printed
to stderr while the job's registry status remains `done` — distinct from a
reconstruction failure, after which the save is never attempted and the
status is `failed`. -/
theorem C6_persistence_after_done (views : Scene) (force : Bool)
    (emb : String) (recon save : Nat → Outcome) (st : BatchState)
    (id : Nat)
    (hacc : admission views force emb id = Admission.accepted) :
    getStatus (jobStep views force emb recon save st id).printer id
      = jobFinal recon id
    ∧ (jobStep views force emb recon save st id).saveCalls
        = st.saveCalls ++
          (match recon id with
           | Except.ok _ => [id]
           | Except.error _ => [])
    ∧ (jobStep views force emb recon save st id).cerr
        = st.cerr ++
          (match recon id with
           | Except.error e => [e]
           | Except.ok _ =>
             match save id with
             | Except.error e => [e]
             | Except.ok _ => []) := by
  refine ⟨?_, ?_, ?_⟩
  · rw [getStatus_jobStep]
    simp [hacc]
  · unfold jobStep
    cases hr : recon id <;> cases hs : save id <;>
      simp [hacc, hr, hs, reconstruct]
  · unfold jobStep
    cases hr : recon id <;> cases hs : save id <;>
      simp [hacc, hr, hs, reconstruct]

theorem C6_persistence_witness :
    admission sceneOK false (embeddingName 0) 0 = Admission.accepted
    ∧ getStatus (jobStep sceneOK false (embeddingName 0) reconOk saveDiskFull
        initialState 0).printer 0 = ViewStatus.done
    ∧ (jobStep sceneOK false (embeddingName 0) reconOk saveDiskFull
        initialState 0).cerr = ["could not save view"] :=
  ⟨by decide,
   (C6_persistence_after_done sceneOK false (embeddingName 0) reconOk
      saveDiskFull initialState 0 (by decide)).1,
   (C6_persistence_after_done sceneOK false (embeddingName 0) reconOk
      saveDiskFull initialState 0 (by decide)).2.2⟩

/-- C10: a listed in-range id whose scene entry is null is skipped exactly
like an invalid camera — the same silent `invalidView` decision, the batch
state unchanged — and the camera validity of a view is only ever consulted
on a non-null entry: any dispatched id names a non-null view with a valid
camera, so the null test at dmrecon.cc:223 shields the camera call. -/
theorem C10_null_view_skipped (views : Scene) (force : Bool) (emb : String)
    (recon save : Nat → Outcome) (st : BatchState) (id : Nat)
    (hlt : id < views.length) (hnull : views.getD id none = none) :
    admission views force emb id = Admission.invalidView
    ∧ jobStep views force emb recon save st id = st
    ∧ (∀ j w, admission views force emb j = Admission.accepted →
        views.getD j none = some w → w.cameraValid = true)
    ∧ (∀ j, admission views force emb j = Admission.accepted →
        ∃ w, views.getD j none = some w) := by
  have hadm : admission views force emb id = Admission.invalidView := by
    unfold admission
    rw [if_neg (Nat.not_le.mpr hlt), hnull]
  refine ⟨hadm, by simp [jobStep, hadm], ?_, ?_⟩
  · intro j w hacc hw
    obtain ⟨_, w', hw', hcv⟩ :=
      admission_accepted_inv views force emb j hacc
    rw [hw] at hw'
    cases hw'
    exact hcv
  · intro j hacc
    obtain ⟨_, w', hw', _⟩ :=
      admission_accepted_inv views force emb j hacc
    exact ⟨w', hw'⟩

theorem C10_null_view_witness :
    admission [(none : Option View)] false (embeddingName 0) 0
      = Admission.invalidView
    ∧ jobStep [(none : Option View)] false (embeddingName 0) reconOk saveOk
        initialState 0 = initialState :=
  ⟨(C10_null_view_skipped [(none : Option View)] false (embeddingName 0)
      reconOk saveOk initialState 0 (by decide) (by decide)).1,
   (C10_null_view_skipped [(none : Option View)] false (embeddingName 0)
      reconOk saveOk initialState 0 (by decide) (by decide)).2.1⟩

end Dmrecon
